import Mathlib

set_option maxHeartbeats 1000000

/-!
Verification development for the WENOEXT repository (files
`WENOUpwindFit/WENOUpwindFit.H` and `WENOBase/WENOBase.H`).

The scheme's monotonicity limiter `calcLimiter`, the implicit-weight
function `weights`, the constructor taking only a mesh and a polynomial
order, and the `WENOBase::instance` accessor are shallowly embedded over
exact rational arithmetic.  Machine scalars become `ℚ`, OpenFOAM fields
become functions from cell/face labels, and the mutation of the
owner-side face field `tsfP` becomes explicit state passing through left
folds over the face lists, mirroring the loops of the source.
-/

namespace WENOEXT

/-- Tolerance `1e-10` used by `calcLimiter` in the degenerate-denominator
tests `mag(maxP - vfI[cellI]) < 1e-10`. -/
def tol : ℚ := 1 / 10 ^ 10

/-- Maximum entry of a cell field with `n` entries, embedding
`max(vfI)` over the internal field (meaningful for `n ≥ 1`). -/
def fieldMax (n : Nat) (f : Nat → ℚ) : ℚ :=
  (List.range n).foldl (fun a i => max a (f i)) (f 0)

/-- Minimum entry of a cell field with `n` entries, embedding
`min(vfI)` over the internal field (meaningful for `n ≥ 1`). -/
def fieldMin (n : Nat) (f : Nat → ℚ) : ℚ :=
  (List.range n).foldl (fun a i => min a (f i)) (f 0)

/-- Connectivity data of an `fvMesh` as consumed by `calcLimiter`:
owner/neighbour of each internal face, the face list of each cell,
and the boundary patches (coupled flag plus their `faceCells` lists). -/
structure Mesh where
  nCells : Nat
  nInternalFaces : Nat
  owner : Nat → Nat
  neighbour : Nat → Nat
  cellFaces : Nat → List Nat
  nPatches : Nat
  patchCoupled : Nat → Bool
  patchFaceCells : Nat → List Nat

/-- Cached tables of a `WENOBase` Stencil Store (`WENOBase.H`, private
data): stencil IDs, halo centers, the cell-to-patch classification map,
the patch-to-processor map, volume/surface integral tables, reference
face areas, least-squares pseudoinverses and oscillation matrices, and
the dimensionality lists.  Matrix entries are rationals, index entries
are integers; only their identity matters for the frame properties. -/
structure StencilStore where
  stencilsID : List (List (List Int))
  haloCenters : List (List (ℚ × ℚ × ℚ))
  cellToPatchMap : List (List (List Int))
  patchToProcMap : List Int
  volIntegralsList : List (List (List (List ℚ)))
  intBasTrans : List (List (List (List (List ℚ))))
  refFacAr : List (List ℚ)
  lsMatrix : List (List (List (List ℚ)))
  oscB : List (List (List ℚ))
  dimList : List (List Int)
  deriving Repr, DecidableEq

/-- State visible to `WENOUpwindFit<scalar>::calcLimiter`: the
cell-average field `vfI`, the owner-side and neighbour-side provisional
face fields `tsfP`/`tsfN` with their boundary patch fields, the face
flux with its boundary field, the exchanged neighbour values `vfN`
of each coupled patch, and the cached Stencil Store tables. -/
structure LimState where
  vfI : Nat → ℚ
  tsfP : Nat → ℚ
  tsfN : Nat → ℚ
  faceFlux : Nat → ℚ
  bndTsfP : Nat → Nat → ℚ
  bndTsfN : Nat → Nat → ℚ
  bndFaceFlux : Nat → Nat → ℚ
  bndVfN : Nat → Nat → ℚ
  store : StencilStore

/-- One step of the `forAll(faces, fI)` scan of
`WENOUpwindFit<scalar>::calcLimiter` building `maxP`/`minP` for a cell:
boundary faces are skipped, on owned internal faces `tsfP` is compared,
otherwise `tsfN`, with the source's `if`/`else if` update. -/
def scanStep (mesh : Mesh) (tsfP tsfN : Nat → ℚ) (cellI : Nat)
    (mp : ℚ × ℚ) (fI : Nat) : ℚ × ℚ :=
  if fI < mesh.nInternalFaces then
    if cellI = mesh.owner fI then
      if tsfP fI > mp.1 then (tsfP fI, mp.2)
      else if tsfP fI < mp.2 then (mp.1, tsfP fI)
      else mp
    else
      if tsfN fI > mp.1 then (tsfN fI, mp.2)
      else if tsfN fI < mp.2 then (mp.1, tsfN fI)
      else mp
  else mp

/-- The pair `(maxP, minP)` computed for cell `cellI`, both initialised
to `vfI[cellI]` and updated by scanning the cell's faces. -/
def cellMaxMinP (mesh : Mesh) (vfI tsfP tsfN : Nat → ℚ) (cellI : Nat) :
    ℚ × ℚ :=
  (mesh.cellFaces cellI).foldl (scanStep mesh tsfP tsfN cellI)
    (vfI cellI, vfI cellI)

/-- Limiter coefficient of one cell: `min(min(argMax, argMin), 1.0)`
with `argMax`/`argMin` the guarded magnitude ratios against the global
field extrema `maxPhi`/`minPhi` (`WENOUpwindFit.H`, scalar
specialisation of `calcLimiter`). -/
def thetaCell (mesh : Mesh) (vfI tsfP tsfN : Nat → ℚ) (cellI : Nat) : ℚ :=
  let mp := cellMaxMinP mesh vfI tsfP tsfN cellI
  let argMax :=
    if |mp.1 - vfI cellI| < tol then 1
    else |(fieldMax mesh.nCells vfI - vfI cellI) / (mp.1 - vfI cellI)|
  let argMin :=
    if |mp.2 - vfI cellI| < tol then 1
    else |(fieldMin mesh.nCells vfI - vfI cellI) / (mp.2 - vfI cellI)|
  min (min argMax argMin) 1

/-- The `scalarField theta(mesh.nCells(), 0.0)` array: the computed
coefficient on mesh cells, the initial `0.0` outside. -/
def thetaField (mesh : Mesh) (vfI tsfP tsfN : Nat → ℚ) (cellI : Nat) : ℚ :=
  if cellI < mesh.nCells then thetaCell mesh vfI tsfP tsfN cellI else 0

/-- New value written to `tsfP[faceI]` by the internal-face loop of the
scalar `calcLimiter`: the three-way branch on the sign of
`faceFlux_[faceI]`, with the trailing `tsfP[faceI] -= vfI[...]`
folded into the expression. `tPf` is the current `tsfP[faceI]`. -/
def internalFaceVal (mesh : Mesh) (limFac : ℚ) (th : Nat → ℚ)
    (vfI tsfN faceFlux : Nat → ℚ) (tPf : ℚ) (faceI : Nat) : ℚ :=
  if faceFlux faceI > 0 then
    limFac * (th (mesh.owner faceI) * (tPf - vfI (mesh.owner faceI))
        + vfI (mesh.owner faceI))
      + (1 - limFac) * tPf - vfI (mesh.owner faceI)
  else if faceFlux faceI < 0 then
    limFac * (th (mesh.neighbour faceI)
          * (tsfN faceI - vfI (mesh.neighbour faceI))
        + vfI (mesh.neighbour faceI))
      + (1 - limFac) * tsfN faceI - vfI (mesh.neighbour faceI)
  else 0

/-- One iteration of `forAll(P, faceI)` in the scalar `calcLimiter`:
only the owner-side face field `tsfP` is written, at `faceI`. -/
def internalStep (mesh : Mesh) (limFac : ℚ) (th : Nat → ℚ)
    (s : LimState) (faceI : Nat) : LimState :=
  { s with tsfP := (Function.update s.tsfP faceI
      (internalFaceVal mesh limFac th s.vfI s.tsfN s.faceFlux
        (s.tsfP faceI) faceI)) }

/-- New value written to `pbtsfP[faceI]` on a coupled patch: the
three-way branch on `pFaceFlux[faceI]`; the negative-flux branch uses
the factor `1.0` (the source's `// unlimited` branch) and the exchanged
neighbour values `vfN`. `tPf` is the current `pbtsfP[faceI]`. -/
def coupledFaceVal (limFac : ℚ) (th vfI : Nat → ℚ) (pOwner : List Nat)
    (pbtsfN pFaceFlux vfN : Nat → ℚ) (tPf : ℚ) (faceI : Nat) : ℚ :=
  let own := pOwner.getD faceI 0
  if pFaceFlux faceI > 0 then
    limFac * (th own * (tPf - vfI own) + vfI own)
      + (1 - limFac) * tPf - vfI own
  else if pFaceFlux faceI < 0 then
    limFac * (1 * (pbtsfN faceI - vfN faceI) + vfN faceI)
      + (1 - limFac) * pbtsfN faceI - vfN faceI
  else 0

/-- One iteration of `forAll(pOwner, faceI)` on a coupled patch,
updating one entry of that patch's owner-side boundary field. -/
def coupledStep (limFac : ℚ) (th vfI : Nat → ℚ) (pOwner : List Nat)
    (pbtsfN pFaceFlux vfN : Nat → ℚ) (t : Nat → ℚ) (faceI : Nat) :
    Nat → ℚ :=
  Function.update t faceI
    (coupledFaceVal limFac th vfI pOwner pbtsfN pFaceFlux vfN
      (t faceI) faceI)

/-- One iteration of `forAll(tsfP.boundaryField(), patchI)`: coupled
patches rewrite their owner-side boundary field face by face, other
patches are left untouched. -/
def patchStep (mesh : Mesh) (limFac : ℚ) (th : Nat → ℚ)
    (s : LimState) (pI : Nat) : LimState :=
  if mesh.patchCoupled pI then
    { s with bndTsfP := (Function.update s.bndTsfP pI
        ((List.range (mesh.patchFaceCells pI).length).foldl
          (coupledStep limFac th s.vfI (mesh.patchFaceCells pI)
            (s.bndTsfN pI) (s.bndFaceFlux pI) (s.bndVfN pI))
          (s.bndTsfP pI))) }
  else s

/-- Embedding of `WENOUpwindFit<scalar>::calcLimiter`
(`WENOUpwindFit.H`): compute the limiter array `theta` from the
incoming fields, rewrite `tsfP` over the internal faces, then rewrite
the owner-side boundary fields of the coupled patches.  Only `tsfP`
and its boundary field are written; every other field of the state is
read through `const` access in the source. -/
def calcLimiter (mesh : Mesh) (limFac : ℚ) (s : LimState) : LimState :=
  (List.range mesh.nPatches).foldl
    (patchStep mesh limFac (thetaField mesh s.vfI s.tsfP s.tsfN))
    ((List.range mesh.nInternalFaces).foldl
      (internalStep mesh limFac (thetaField mesh s.vfI s.tsfP s.tsfN)) s)

/-- Private data of a `WENOUpwindFit` scheme object: the stored face
flux reference (internal and boundary parts), the user-defined
polynomial order (stored as a `scalar` in the source) and the limiting
factor. -/
structure WENOUpwindFit where
  faceFlux : Nat → ℚ
  bndFaceFlux : Nat → Nat → ℚ
  polOrder : ℚ
  limFac : ℚ

/-- Constructor `WENOUpwindFit(const fvMesh&, const label polOrder)`:
the face flux is initialised from `zeroFlux()` (the identically zero
surface field) and the limiting factor to `0`. -/
def WENOUpwindFit.fromMesh (_mesh : Mesh) (polOrder : Int) :
    WENOUpwindFit :=
  { faceFlux := fun _ => 0
    bndFaceFlux := fun _ _ => 0
    polOrder := (polOrder : ℚ)
    limFac := 0 }

/-- The external OpenFOAM `pos` applied per face: `1` where the
argument is non-negative, `0` where it is negative (so `1` on positive
entries and `0` on negative ones). -/
def pos (x : ℚ) : ℚ := if 0 ≤ x then 1 else 0

/-- Member `WENOUpwindFit::weights(vf)`: returns `pos(faceFlux_)`,
ignoring the field argument `vf`. -/
def WENOUpwindFit.weights (sch : WENOUpwindFit) (_vf : Nat → ℚ) :
    Nat → ℚ :=
  fun faceI => pos (sch.faceFlux faceI)

/-- Identity of one constructed `WENOBase` Stencil Store: the mesh and
polynomial order its private constructor received. -/
structure WENOBaseInst where
  meshId : Nat
  polOrder : Int
  deriving Repr, DecidableEq

/-- Embedding of `WENOBase::instance(mesh, polOrder)` (`WENOBase.H`):
the body is `static WENOBase instance_(mesh, polOrder); return
instance_;`.  The function-local `static` is initialised exactly once,
on the first call, from that first call's arguments; the `Option`
argument carries whether (and with which arguments) the static has
already been initialised, and the result pairs the returned reference
with the new static state. -/
def WENOBase.instanceCall (st : Option WENOBaseInst) (meshId : Nat)
    (polOrder : Int) : WENOBaseInst × Option WENOBaseInst :=
  match st with
  | none => (⟨meshId, polOrder⟩, some ⟨meshId, polOrder⟩)
  | some inst => (inst, some inst)

/-- State visible to the generic templated
`WENOUpwindFit<Type>::calcLimiter`: as `LimState` but every field value
carries `nComp` components (`cell → component → ℚ` and so on). -/
structure GLimState where
  vfI : Nat → Nat → ℚ
  tsfP : Nat → Nat → ℚ
  tsfN : Nat → Nat → ℚ
  faceFlux : Nat → ℚ
  bndTsfP : Nat → Nat → Nat → ℚ
  bndTsfN : Nat → Nat → Nat → ℚ
  bndFaceFlux : Nat → Nat → ℚ
  bndVfN : Nat → Nat → Nat → ℚ

/-- Component-`cI` face scan of the generic `calcLimiter`, building
`maxP[cI]`/`minP[cI]` over the cell's internal faces. -/
def gScanStep (mesh : Mesh) (tsfP tsfN : Nat → Nat → ℚ)
    (cellI cI : Nat) (mp : ℚ × ℚ) (fI : Nat) : ℚ × ℚ :=
  if fI < mesh.nInternalFaces then
    if cellI = mesh.owner fI then
      if tsfP fI cI > mp.1 then (tsfP fI cI, mp.2)
      else if tsfP fI cI < mp.2 then (mp.1, tsfP fI cI)
      else mp
    else
      if tsfN fI cI > mp.1 then (tsfN fI cI, mp.2)
      else if tsfN fI cI < mp.2 then (mp.1, tsfN fI cI)
      else mp
  else mp

/-- Limiter coefficient `theta[cellI][cI]` of the generic
`calcLimiter`: the per-component scan against the componentwise field
extrema, with the same guarded ratios as the scalar specialisation. -/
def gThetaCell (mesh : Mesh) (vfI tsfP tsfN : Nat → Nat → ℚ)
    (cellI cI : Nat) : ℚ :=
  let mp := (mesh.cellFaces cellI).foldl
    (gScanStep mesh tsfP tsfN cellI cI) (vfI cellI cI, vfI cellI cI)
  let argMax :=
    if |mp.1 - vfI cellI cI| < tol then 1
    else |(fieldMax mesh.nCells (fun i => vfI i cI) - vfI cellI cI)
      / (mp.1 - vfI cellI cI)|
  let argMin :=
    if |mp.2 - vfI cellI cI| < tol then 1
    else |(fieldMin mesh.nCells (fun i => vfI i cI) - vfI cellI cI)
      / (mp.2 - vfI cellI cI)|
  min (min argMax argMin) 1

/-- The generic `Field<Type> theta(mesh.nCells(), zero)` array: the
computed coefficient on mesh cells and components `cI < nComp`, the
initial zero elsewhere. -/
def gThetaField (mesh : Mesh) (nComp : Nat)
    (vfI tsfP tsfN : Nat → Nat → ℚ) (cellI cI : Nat) : ℚ :=
  if cellI < mesh.nCells ∧ cI < nComp then
    gThetaCell mesh vfI tsfP tsfN cellI cI
  else 0

/-- New component list written to `tsfP[faceI]` by the internal-face
loop of the generic `calcLimiter`: the branch on the face flux sign,
with a `for (label cI = 0; cI < nComp; cI++)` component loop in each
nonzero branch and `pTraits<Type>::zero` in the zero branch. -/
def gInternalFaceNew (mesh : Mesh) (limFac : ℚ) (th : Nat → Nat → ℚ)
    (nComp : Nat) (vfI tsfN : Nat → Nat → ℚ) (faceFlux : Nat → ℚ)
    (tPf : Nat → ℚ) (faceI : Nat) : Nat → ℚ :=
  if faceFlux faceI > 0 then
    (List.range nComp).foldl (fun tc cI => Function.update tc cI
      (limFac * (th (mesh.owner faceI) cI
            * (tc cI - vfI (mesh.owner faceI) cI)
          + vfI (mesh.owner faceI) cI)
        + (1 - limFac) * tc cI - vfI (mesh.owner faceI) cI)) tPf
  else if faceFlux faceI < 0 then
    (List.range nComp).foldl (fun tc cI => Function.update tc cI
      (limFac * (th (mesh.neighbour faceI) cI
            * (tsfN faceI cI - vfI (mesh.neighbour faceI) cI)
          + vfI (mesh.neighbour faceI) cI)
        + (1 - limFac) * tsfN faceI cI
        - vfI (mesh.neighbour faceI) cI)) tPf
  else fun _ => 0

/-- One iteration of `forAll(P, faceI)` in the generic `calcLimiter`. -/
def gInternalStep (mesh : Mesh) (limFac : ℚ) (th : Nat → Nat → ℚ)
    (nComp : Nat) (g : GLimState) (faceI : Nat) : GLimState :=
  { g with tsfP := (Function.update g.tsfP faceI
      (gInternalFaceNew mesh limFac th nComp g.vfI g.tsfN g.faceFlux
        (g.tsfP faceI) faceI)) }

/-- New component list written to `pbtsfP[faceI]` on a coupled patch by
the generic `calcLimiter`; the negative-flux branch carries the
source's `1.0` factor (unlimited) on the exchanged neighbour data. -/
def gCoupledFaceNew (limFac : ℚ) (th : Nat → Nat → ℚ) (nComp : Nat)
    (vfI : Nat → Nat → ℚ) (pOwner : List Nat)
    (pbtsfN : Nat → Nat → ℚ) (pFaceFlux : Nat → ℚ)
    (vfN : Nat → Nat → ℚ) (tPf : Nat → ℚ) (faceI : Nat) : Nat → ℚ :=
  let own := pOwner.getD faceI 0
  if pFaceFlux faceI > 0 then
    (List.range nComp).foldl (fun tc cI => Function.update tc cI
      (limFac * (th own cI * (tc cI - vfI own cI) + vfI own cI)
        + (1 - limFac) * tc cI - vfI own cI)) tPf
  else if pFaceFlux faceI < 0 then
    (List.range nComp).foldl (fun tc cI => Function.update tc cI
      (limFac * (1 * (pbtsfN faceI cI - vfN faceI cI) + vfN faceI cI)
        + (1 - limFac) * pbtsfN faceI cI - vfN faceI cI)) tPf
  else fun _ => 0

/-- One iteration of `forAll(pOwner, faceI)` on a coupled patch in the
generic `calcLimiter`. -/
def gCoupledStep (limFac : ℚ) (th : Nat → Nat → ℚ) (nComp : Nat)
    (vfI : Nat → Nat → ℚ) (pOwner : List Nat)
    (pbtsfN : Nat → Nat → ℚ) (pFaceFlux : Nat → ℚ)
    (vfN : Nat → Nat → ℚ) (t : Nat → Nat → ℚ) (faceI : Nat) :
    Nat → Nat → ℚ :=
  Function.update t faceI
    (gCoupledFaceNew limFac th nComp vfI pOwner pbtsfN pFaceFlux vfN
      (t faceI) faceI)

/-- One iteration of `forAll(tsfP.boundaryField(), patchI)` in the
generic `calcLimiter`. -/
def gPatchStep (mesh : Mesh) (limFac : ℚ) (th : Nat → Nat → ℚ)
    (nComp : Nat) (g : GLimState) (pI : Nat) : GLimState :=
  if mesh.patchCoupled pI then
    { g with bndTsfP := (Function.update g.bndTsfP pI
        ((List.range (mesh.patchFaceCells pI).length).foldl
          (gCoupledStep limFac th nComp g.vfI (mesh.patchFaceCells pI)
            (g.bndTsfN pI) (g.bndFaceFlux pI) (g.bndVfN pI))
          (g.bndTsfP pI))) }
  else g

/-- Embedding of the generic templated `WENOUpwindFit<Type>::calcLimiter`
(`WENOUpwindFit.H`), parameterised by the component count
`nComp = vfI[0].size()`. -/
def gCalcLimiter (mesh : Mesh) (limFac : ℚ) (nComp : Nat)
    (g : GLimState) : GLimState :=
  (List.range mesh.nPatches).foldl
    (gPatchStep mesh limFac (gThetaField mesh nComp g.vfI g.tsfP g.tsfN)
      nComp)
    ((List.range mesh.nInternalFaces).foldl
      (gInternalStep mesh limFac
        (gThetaField mesh nComp g.vfI g.tsfP g.tsfN) nComp) g)

/-- View of a scalar limiter state as a one-component generic state:
every component of every field holds the scalar value. -/
def liftState (s : LimState) : GLimState :=
  { vfI := fun i _ => s.vfI i
    tsfP := fun f _ => s.tsfP f
    tsfN := fun f _ => s.tsfN f
    faceFlux := s.faceFlux
    bndTsfP := fun p f _ => s.bndTsfP p f
    bndTsfN := fun p f _ => s.bndTsfN p f
    bndFaceFlux := s.bndFaceFlux
    bndVfN := fun p f _ => s.bndVfN p f }

/-- Formalisation of the specification's wording of the immediate cell
neighbourhood of a donor cell (used only to state the spec's limiter
bound, not taken from the source): the donor's own cell average, the
cell averages of the cells sharing an internal face with the donor, and
the exchanged neighbour values `vfN` at the donor's coupled-patch
faces. -/
def specNeighVals (mesh : Mesh) (vfI : Nat → ℚ) (bndVfN : Nat → Nat → ℚ)
    (cellI : Nat) : List ℚ :=
  vfI cellI ::
    ((mesh.cellFaces cellI).filterMap (fun f =>
      if f < mesh.nInternalFaces then
        some (if mesh.owner f = cellI then vfI (mesh.neighbour f)
          else vfI (mesh.owner f))
      else none)
    ++ (List.range mesh.nPatches).flatMap (fun pI =>
      if mesh.patchCoupled pI then
        (List.range (mesh.patchFaceCells pI).length).filterMap (fun fI =>
          if (mesh.patchFaceCells pI).getD fI 0 = cellI then
            some (bndVfN pI fI)
          else none)
      else []))

/-- Maximum of the spec's immediate cell neighbourhood of `cellI`. -/
def specNeighMax (mesh : Mesh) (vfI : Nat → ℚ) (bndVfN : Nat → Nat → ℚ)
    (cellI : Nat) : ℚ :=
  (specNeighVals mesh vfI bndVfN cellI).foldl max (vfI cellI)

/-- Minimum of the spec's immediate cell neighbourhood of `cellI`. -/
def specNeighMin (mesh : Mesh) (vfI : Nat → ℚ) (bndVfN : Nat → Nat → ℚ)
    (cellI : Nat) : ℚ :=
  (specNeighVals mesh vfI bndVfN cellI).foldl min (vfI cellI)

/-- Concrete mesh with three cells in a row (internal faces `0`, `1`,
owned by the lower cell), and one coupled patch holding the single
boundary face `2` of cell `2`. -/
def exMesh : Mesh :=
  { nCells := 3
    nInternalFaces := 2
    owner := fun f => if f = 0 then 0 else 1
    neighbour := fun f => if f = 0 then 1 else 2
    cellFaces := fun c =>
      if c = 0 then [0] else if c = 1 then [0, 1] else [1, 2]
    nPatches := 1
    patchCoupled := fun _ => true
    patchFaceCells := fun _ => [2] }

/-- Empty Stencil Store tables for the concrete states. -/
def exStore : StencilStore :=
  { stencilsID := []
    haloCenters := []
    cellToPatchMap := []
    patchToProcMap := []
    volIntegralsList := []
    intBasTrans := []
    refFacAr := []
    lsMatrix := []
    oscB := []
    dimList := [] }

/-- Concrete limiter state on `exMesh`: cell averages `0, 1, 10`, a
provisional owner-side value `5` at face `0`, flux `1` at face `0` and
`0` at face `1`, and zero flux on the coupled patch. -/
def exState : LimState :=
  { vfI := fun c => if c = 0 then 0 else if c = 1 then 1 else 10
    tsfP := fun f => if f = 0 then 5 else 1
    tsfN := fun _ => 1
    faceFlux := fun f => if f = 0 then 1 else 0
    bndTsfP := fun _ _ => 2
    bndTsfN := fun _ _ => 3
    bndFaceFlux := fun _ _ => 0
    bndVfN := fun _ _ => 4
    store := exStore }

/-- Concrete state on `exMesh` with negative flux at face `1` and
negative flux on the coupled patch. -/
def exStateNeg : LimState :=
  { vfI := fun c => if c = 0 then 0 else if c = 1 then 1 else 10
    tsfP := fun f => if f = 0 then 5 else 1
    tsfN := fun f => if f = 1 then 7 else 1
    faceFlux := fun f => if f = 0 then 1 else -1
    bndTsfP := fun _ _ => 2
    bndTsfN := fun _ _ => 3
    bndFaceFlux := fun _ _ => -1
    bndVfN := fun _ _ => 4
    store := exStore }

/-- Concrete constant state on `exMesh`: every cell average and every
provisional face value equals `3`. -/
def exConstState : LimState :=
  { vfI := fun _ => 3
    tsfP := fun _ => 3
    tsfN := fun _ => 3
    faceFlux := fun f => if f = 0 then 1 else -1
    bndTsfP := fun _ _ => 3
    bndTsfN := fun _ _ => 3
    bndFaceFlux := fun _ _ => 2
    bndVfN := fun _ _ => 3
    store := exStore }

/-- Concrete state on `exMesh` whose face flux is identically zero, as
produced by the mesh-only constructor's `zeroFlux()`. -/
def exZeroFluxState : LimState :=
  { vfI := fun c => if c = 0 then 0 else if c = 1 then 1 else 10
    tsfP := fun f => if f = 0 then 5 else 1
    tsfN := fun _ => 1
    faceFlux := fun _ => 0
    bndTsfP := fun _ _ => 2
    bndTsfN := fun _ _ => 3
    bndFaceFlux := fun _ _ => 0
    bndVfN := fun _ _ => 4
    store := exStore }

section FoldLemmas

/-- The internal-face loop writes only the owner-side face field. -/
lemma foldl_internalStep_eq (mesh : Mesh) (limFac : ℚ) (th : Nat → ℚ)
    (l : List Nat) (s : LimState) :
    l.foldl (internalStep mesh limFac th) s =
      { s with tsfP := (l.foldl (internalStep mesh limFac th) s).tsfP } := by
  induction l generalizing s with
  | nil => rfl
  | cons a t ih =>
    simp only [List.foldl_cons]
    rw [ih (internalStep mesh limFac th s a)]
    rfl

/-- Pointwise effect of the internal-face loop on `tsfP`: each listed
face receives its branch value computed from the incoming state. -/
lemma foldl_internalStep_tsfP (mesh : Mesh) (limFac : ℚ) (th : Nat → ℚ)
    (l : List Nat) (hl : l.Nodup) (s : LimState) (x : Nat) :
    (l.foldl (internalStep mesh limFac th) s).tsfP x =
      if x ∈ l then
        internalFaceVal mesh limFac th s.vfI s.tsfN s.faceFlux
          (s.tsfP x) x
      else s.tsfP x := by
  induction l generalizing s with
  | nil => simp
  | cons a t ih =>
    obtain ⟨hat, ht⟩ := List.nodup_cons.mp hl
    simp only [List.foldl_cons]
    rw [ih ht]
    by_cases hx : x ∈ t
    · have hxa : x ≠ a := by rintro rfl; exact hat hx
      simp [internalStep, hx, Function.update_noteq hxa, List.mem_cons]
    · by_cases hxa : x = a
      · subst hxa
        simp [internalStep, hx, Function.update_same, List.mem_cons]
      · simp [internalStep, hx, hxa, Function.update_noteq hxa,
          List.mem_cons]

/-- The patch loop writes only the owner-side boundary field. -/
lemma foldl_patchStep_eq (mesh : Mesh) (limFac : ℚ) (th : Nat → ℚ)
    (l : List Nat) (s : LimState) :
    l.foldl (patchStep mesh limFac th) s =
      { s with bndTsfP := (l.foldl (patchStep mesh limFac th) s).bndTsfP } := by
  induction l generalizing s with
  | nil => rfl
  | cons a t ih =>
    simp only [List.foldl_cons]
    rw [ih (patchStep mesh limFac th s a)]
    by_cases h : mesh.patchCoupled a <;> simp [patchStep, h]

/-- Pointwise effect of the inner coupled-face loop. -/
lemma foldl_coupledStep_apply (limFac : ℚ) (th vfI : Nat → ℚ)
    (pOwner : List Nat) (pbtsfN pFaceFlux vfN : Nat → ℚ)
    (l : List Nat) (hl : l.Nodup) (t0 : Nat → ℚ) (x : Nat) :
    (l.foldl (coupledStep limFac th vfI pOwner pbtsfN pFaceFlux vfN) t0)
        x =
      if x ∈ l then
        coupledFaceVal limFac th vfI pOwner pbtsfN pFaceFlux vfN
          (t0 x) x
      else t0 x := by
  induction l generalizing t0 with
  | nil => simp
  | cons a t ih =>
    obtain ⟨hat, ht⟩ := List.nodup_cons.mp hl
    simp only [List.foldl_cons]
    rw [ih ht]
    by_cases hx : x ∈ t
    · have hxa : x ≠ a := by rintro rfl; exact hat hx
      simp [coupledStep, hx, Function.update_noteq hxa, List.mem_cons]
    · by_cases hxa : x = a
      · subst hxa
        simp [coupledStep, hx, Function.update_same, List.mem_cons]
      · simp [coupledStep, hx, hxa, Function.update_noteq hxa,
          List.mem_cons]

/-- Pointwise effect of the patch loop on the owner-side boundary
field. -/
lemma foldl_patchStep_bndTsfP (mesh : Mesh) (limFac : ℚ) (th : Nat → ℚ)
    (l : List Nat) (hl : l.Nodup) (s : LimState) (pI fI : Nat) :
    (l.foldl (patchStep mesh limFac th) s).bndTsfP pI fI =
      if pI ∈ l ∧ mesh.patchCoupled pI then
        ((List.range (mesh.patchFaceCells pI).length).foldl
          (coupledStep limFac th s.vfI (mesh.patchFaceCells pI)
            (s.bndTsfN pI) (s.bndFaceFlux pI) (s.bndVfN pI))
          (s.bndTsfP pI)) fI
      else s.bndTsfP pI fI := by
  induction l generalizing s with
  | nil => simp
  | cons a t ih =>
    obtain ⟨hat, ht⟩ := List.nodup_cons.mp hl
    simp only [List.foldl_cons]
    rw [ih ht]
    by_cases hp : pI ∈ t
    · have hpa : pI ≠ a := by rintro rfl; exact hat hp
      by_cases hc : mesh.patchCoupled a <;>
        simp [patchStep, hp, hc, Function.update_noteq hpa,
          List.mem_cons]
    · by_cases hpa : pI = a
      · subst hpa
        by_cases hc : mesh.patchCoupled pI <;>
          simp [patchStep, hp, hc, Function.update_same, List.mem_cons]
      · by_cases hc : mesh.patchCoupled a <;>
          simp [patchStep, hp, hpa, Function.update_noteq hpa,
            List.mem_cons, hc]

/-- Closed form of `calcLimiter` on internal faces. -/
lemma calcLimiter_tsfP (mesh : Mesh) (limFac : ℚ) (s : LimState)
    (x : Nat) :
    (calcLimiter mesh limFac s).tsfP x =
      if x < mesh.nInternalFaces then
        internalFaceVal mesh limFac
          (thetaField mesh s.vfI s.tsfP s.tsfN) s.vfI s.tsfN s.faceFlux
          (s.tsfP x) x
      else s.tsfP x := by
  unfold calcLimiter
  rw [foldl_patchStep_eq]
  simp only []
  rw [foldl_internalStep_tsfP mesh limFac _ _ (List.nodup_range _) s x]
  simp [List.mem_range]

/-- Closed form of `calcLimiter` on coupled-patch boundary faces. -/
lemma calcLimiter_bndTsfP (mesh : Mesh) (limFac : ℚ) (s : LimState)
    (pI fI : Nat) :
    (calcLimiter mesh limFac s).bndTsfP pI fI =
      if pI < mesh.nPatches ∧ mesh.patchCoupled pI ∧
          fI < (mesh.patchFaceCells pI).length then
        coupledFaceVal limFac (thetaField mesh s.vfI s.tsfP s.tsfN)
          s.vfI (mesh.patchFaceCells pI) (s.bndTsfN pI)
          (s.bndFaceFlux pI) (s.bndVfN pI) (s.bndTsfP pI fI) fI
      else s.bndTsfP pI fI := by
  unfold calcLimiter
  rw [foldl_patchStep_bndTsfP mesh limFac _ _ (List.nodup_range _)]
  rw [foldl_internalStep_eq]
  simp only [List.mem_range]
  by_cases h1 : pI < mesh.nPatches
  · by_cases h2 : mesh.patchCoupled pI
    · simp only [h1, h2, and_true, true_and, if_true]
      rw [foldl_coupledStep_apply _ _ _ _ _ _ _ _
        (List.nodup_range _)]
      simp [List.mem_range, h1, h2]
    · simp [h1, h2]
  · simp [h1]

end FoldLemmas

section GenericFoldLemmas

/-- The generic internal-face loop writes only the owner-side face
field. -/
lemma foldl_gInternalStep_eq (mesh : Mesh) (limFac : ℚ)
    (th : Nat → Nat → ℚ) (nComp : Nat) (l : List Nat) (g : GLimState) :
    l.foldl (gInternalStep mesh limFac th nComp) g =
      { g with tsfP :=
          (l.foldl (gInternalStep mesh limFac th nComp) g).tsfP } := by
  induction l generalizing g with
  | nil => rfl
  | cons a t ih =>
    simp only [List.foldl_cons]
    rw [ih (gInternalStep mesh limFac th nComp g a)]
    rfl

/-- Pointwise effect of the generic internal-face loop on `tsfP`. -/
lemma foldl_gInternalStep_tsfP (mesh : Mesh) (limFac : ℚ)
    (th : Nat → Nat → ℚ) (nComp : Nat) (l : List Nat) (hl : l.Nodup)
    (g : GLimState) (x : Nat) :
    (l.foldl (gInternalStep mesh limFac th nComp) g).tsfP x =
      if x ∈ l then
        gInternalFaceNew mesh limFac th nComp g.vfI g.tsfN g.faceFlux
          (g.tsfP x) x
      else g.tsfP x := by
  induction l generalizing g with
  | nil => simp
  | cons a t ih =>
    obtain ⟨hat, ht⟩ := List.nodup_cons.mp hl
    simp only [List.foldl_cons]
    rw [ih ht]
    by_cases hx : x ∈ t
    · have hxa : x ≠ a := by rintro rfl; exact hat hx
      simp [gInternalStep, hx, Function.update_noteq hxa, List.mem_cons]
    · by_cases hxa : x = a
      · subst hxa
        simp [gInternalStep, hx, Function.update_same, List.mem_cons]
      · simp [gInternalStep, hx, hxa, Function.update_noteq hxa,
          List.mem_cons]

/-- The generic patch loop writes only the owner-side boundary field. -/
lemma foldl_gPatchStep_eq (mesh : Mesh) (limFac : ℚ)
    (th : Nat → Nat → ℚ) (nComp : Nat) (l : List Nat) (g : GLimState) :
    l.foldl (gPatchStep mesh limFac th nComp) g =
      { g with bndTsfP :=
          (l.foldl (gPatchStep mesh limFac th nComp) g).bndTsfP } := by
  induction l generalizing g with
  | nil => rfl
  | cons a t ih =>
    simp only [List.foldl_cons]
    rw [ih (gPatchStep mesh limFac th nComp g a)]
    by_cases h : mesh.patchCoupled a <;> simp [gPatchStep, h]

/-- Pointwise effect of the generic inner coupled-face loop. -/
lemma foldl_gCoupledStep_apply (limFac : ℚ) (th : Nat → Nat → ℚ)
    (nComp : Nat) (vfI : Nat → Nat → ℚ) (pOwner : List Nat)
    (pbtsfN : Nat → Nat → ℚ) (pFaceFlux : Nat → ℚ)
    (vfN : Nat → Nat → ℚ) (l : List Nat) (hl : l.Nodup)
    (t0 : Nat → Nat → ℚ) (x : Nat) :
    (l.foldl
        (gCoupledStep limFac th nComp vfI pOwner pbtsfN pFaceFlux vfN)
        t0) x =
      if x ∈ l then
        gCoupledFaceNew limFac th nComp vfI pOwner pbtsfN pFaceFlux vfN
          (t0 x) x
      else t0 x := by
  induction l generalizing t0 with
  | nil => simp
  | cons a t ih =>
    obtain ⟨hat, ht⟩ := List.nodup_cons.mp hl
    simp only [List.foldl_cons]
    rw [ih ht]
    by_cases hx : x ∈ t
    · have hxa : x ≠ a := by rintro rfl; exact hat hx
      simp [gCoupledStep, hx, Function.update_noteq hxa, List.mem_cons]
    · by_cases hxa : x = a
      · subst hxa
        simp [gCoupledStep, hx, Function.update_same, List.mem_cons]
      · simp [gCoupledStep, hx, hxa, Function.update_noteq hxa,
          List.mem_cons]

/-- Pointwise effect of the generic patch loop on the owner-side
boundary field. -/
lemma foldl_gPatchStep_bndTsfP (mesh : Mesh) (limFac : ℚ)
    (th : Nat → Nat → ℚ) (nComp : Nat) (l : List Nat) (hl : l.Nodup)
    (g : GLimState) (pI fI : Nat) :
    (l.foldl (gPatchStep mesh limFac th nComp) g).bndTsfP pI fI =
      if pI ∈ l ∧ mesh.patchCoupled pI then
        ((List.range (mesh.patchFaceCells pI).length).foldl
          (gCoupledStep limFac th nComp g.vfI (mesh.patchFaceCells pI)
            (g.bndTsfN pI) (g.bndFaceFlux pI) (g.bndVfN pI))
          (g.bndTsfP pI)) fI
      else g.bndTsfP pI fI := by
  induction l generalizing g with
  | nil => simp
  | cons a t ih =>
    obtain ⟨hat, ht⟩ := List.nodup_cons.mp hl
    simp only [List.foldl_cons]
    rw [ih ht]
    by_cases hp : pI ∈ t
    · have hpa : pI ≠ a := by rintro rfl; exact hat hp
      by_cases hc : mesh.patchCoupled a <;>
        simp [gPatchStep, hp, hc, Function.update_noteq hpa,
          List.mem_cons]
    · by_cases hpa : pI = a
      · subst hpa
        by_cases hc : mesh.patchCoupled pI <;>
          simp [gPatchStep, hp, hc, Function.update_same, List.mem_cons]
      · by_cases hc : mesh.patchCoupled a <;>
          simp [gPatchStep, hp, hpa, Function.update_noteq hpa,
            List.mem_cons, hc]

/-- Closed form of the generic `calcLimiter` on internal faces. -/
lemma gCalcLimiter_tsfP (mesh : Mesh) (limFac : ℚ) (nComp : Nat)
    (g : GLimState) (x : Nat) :
    (gCalcLimiter mesh limFac nComp g).tsfP x =
      if x < mesh.nInternalFaces then
        gInternalFaceNew mesh limFac
          (gThetaField mesh nComp g.vfI g.tsfP g.tsfN) nComp g.vfI
          g.tsfN g.faceFlux (g.tsfP x) x
      else g.tsfP x := by
  unfold gCalcLimiter
  rw [foldl_gPatchStep_eq]
  simp only []
  rw [foldl_gInternalStep_tsfP mesh limFac _ nComp _
    (List.nodup_range _) g x]
  simp [List.mem_range]

/-- Closed form of the generic `calcLimiter` on coupled-patch boundary
faces. -/
lemma gCalcLimiter_bndTsfP (mesh : Mesh) (limFac : ℚ) (nComp : Nat)
    (g : GLimState) (pI fI : Nat) :
    (gCalcLimiter mesh limFac nComp g).bndTsfP pI fI =
      if pI < mesh.nPatches ∧ mesh.patchCoupled pI ∧
          fI < (mesh.patchFaceCells pI).length then
        gCoupledFaceNew limFac
          (gThetaField mesh nComp g.vfI g.tsfP g.tsfN) nComp g.vfI
          (mesh.patchFaceCells pI) (g.bndTsfN pI) (g.bndFaceFlux pI)
          (g.bndVfN pI) (g.bndTsfP pI fI) fI
      else g.bndTsfP pI fI := by
  unfold gCalcLimiter
  rw [foldl_gPatchStep_bndTsfP mesh limFac _ nComp _
    (List.nodup_range _)]
  rw [foldl_gInternalStep_eq]
  simp only [List.mem_range]
  by_cases h1 : pI < mesh.nPatches
  · by_cases h2 : mesh.patchCoupled pI
    · simp only [h1, h2, and_true, true_and, if_true]
      rw [foldl_gCoupledStep_apply _ _ _ _ _ _ _ _ _
        (List.nodup_range _)]
      simp [List.mem_range, h1, h2]
    · simp [h1, h2]
  · simp [h1]

end GenericFoldLemmas

section BoundLemmas

/-- The limiter coefficient of a cell lies in `[0, 1]`. -/
lemma thetaCell_bounds (mesh : Mesh) (vfI tsfP tsfN : Nat → ℚ)
    (cellI : Nat) :
    0 ≤ thetaCell mesh vfI tsfP tsfN cellI ∧
      thetaCell mesh vfI tsfP tsfN cellI ≤ 1 := by
  unfold thetaCell
  dsimp only
  refine ⟨le_min (le_min ?_ ?_) zero_le_one, min_le_right _ _⟩ <;>
    · split
      · exact zero_le_one
      · exact abs_nonneg _

/-- The `theta` array entries lie in `[0, 1]`. -/
lemma thetaField_bounds (mesh : Mesh) (vfI tsfP tsfN : Nat → ℚ)
    (cellI : Nat) :
    0 ≤ thetaField mesh vfI tsfP tsfN cellI ∧
      thetaField mesh vfI tsfP tsfN cellI ≤ 1 := by
  unfold thetaField
  split
  · exact thetaCell_bounds mesh vfI tsfP tsfN cellI
  · exact ⟨le_refl 0, zero_le_one⟩

/-- The generic per-component limiter coefficient lies in `[0, 1]`. -/
lemma gThetaCell_bounds (mesh : Mesh) (vfI tsfP tsfN : Nat → Nat → ℚ)
    (cellI cI : Nat) :
    0 ≤ gThetaCell mesh vfI tsfP tsfN cellI cI ∧
      gThetaCell mesh vfI tsfP tsfN cellI cI ≤ 1 := by
  unfold gThetaCell
  dsimp only
  refine ⟨le_min (le_min ?_ ?_) zero_le_one, min_le_right _ _⟩ <;>
    · split
      · exact zero_le_one
      · exact abs_nonneg _

/-- The generic `theta` array entries lie in `[0, 1]`. -/
lemma gThetaField_bounds (mesh : Mesh) (nComp : Nat)
    (vfI tsfP tsfN : Nat → Nat → ℚ) (cellI cI : Nat) :
    0 ≤ gThetaField mesh nComp vfI tsfP tsfN cellI cI ∧
      gThetaField mesh nComp vfI tsfP tsfN cellI cI ≤ 1 := by
  unfold gThetaField
  split
  · exact gThetaCell_bounds mesh vfI tsfP tsfN cellI cI
  · exact ⟨le_refl 0, zero_le_one⟩

/-- One face scan never lowers `maxP`. -/
lemma scanStep_fst_le (mesh : Mesh) (tsfP tsfN : Nat → ℚ)
    (cellI : Nat) (mp : ℚ × ℚ) (fI : Nat) :
    mp.1 ≤ (scanStep mesh tsfP tsfN cellI mp fI).1 := by
  unfold scanStep
  split_ifs <;> simp_all <;> linarith

/-- One face scan never raises `minP`. -/
lemma scanStep_snd_le (mesh : Mesh) (tsfP tsfN : Nat → ℚ)
    (cellI : Nat) (mp : ℚ × ℚ) (fI : Nat) :
    (scanStep mesh tsfP tsfN cellI mp fI).2 ≤ mp.2 := by
  unfold scanStep
  split_ifs <;> simp_all <;> linarith

/-- One face scan keeps `minP ≤ maxP`. -/
lemma scanStep_pair (mesh : Mesh) (tsfP tsfN : Nat → ℚ) (cellI : Nat)
    (mp : ℚ × ℚ) (fI : Nat) (h : mp.2 ≤ mp.1) :
    (scanStep mesh tsfP tsfN cellI mp fI).2 ≤
      (scanStep mesh tsfP tsfN cellI mp fI).1 := by
  unfold scanStep
  split_ifs <;> simp_all <;> linarith

/-- The scanned value of an internal face is inside the scan result. -/
lemma scanStep_captures (mesh : Mesh) (tsfP tsfN : Nat → ℚ)
    (cellI : Nat) (mp : ℚ × ℚ) (fI : Nat) (h : mp.2 ≤ mp.1)
    (hf : fI < mesh.nInternalFaces) :
    (scanStep mesh tsfP tsfN cellI mp fI).2 ≤
        (if cellI = mesh.owner fI then tsfP fI else tsfN fI) ∧
      (if cellI = mesh.owner fI then tsfP fI else tsfN fI) ≤
        (scanStep mesh tsfP tsfN cellI mp fI).1 := by
  unfold scanStep
  rw [if_pos hf]
  split_ifs <;> constructor <;> simp_all <;> linarith

/-- The whole face scan never lowers `maxP`. -/
lemma foldl_scanStep_fst_le (mesh : Mesh) (tsfP tsfN : Nat → ℚ)
    (cellI : Nat) (l : List Nat) (mp : ℚ × ℚ) :
    mp.1 ≤ (l.foldl (scanStep mesh tsfP tsfN cellI) mp).1 := by
  induction l generalizing mp with
  | nil => simp
  | cons a t ih =>
    simp only [List.foldl_cons]
    exact le_trans (scanStep_fst_le mesh tsfP tsfN cellI mp a) (ih _)

/-- The whole face scan never raises `minP`. -/
lemma foldl_scanStep_snd_le (mesh : Mesh) (tsfP tsfN : Nat → ℚ)
    (cellI : Nat) (l : List Nat) (mp : ℚ × ℚ) :
    (l.foldl (scanStep mesh tsfP tsfN cellI) mp).2 ≤ mp.2 := by
  induction l generalizing mp with
  | nil => simp
  | cons a t ih =>
    simp only [List.foldl_cons]
    exact le_trans (ih _) (scanStep_snd_le mesh tsfP tsfN cellI mp a)

/-- The whole face scan keeps `minP ≤ maxP`. -/
lemma foldl_scanStep_pair (mesh : Mesh) (tsfP tsfN : Nat → ℚ)
    (cellI : Nat) (l : List Nat) (mp : ℚ × ℚ) (h : mp.2 ≤ mp.1) :
    (l.foldl (scanStep mesh tsfP tsfN cellI) mp).2 ≤
      (l.foldl (scanStep mesh tsfP tsfN cellI) mp).1 := by
  induction l generalizing mp with
  | nil => exact h
  | cons a t ih =>
    simp only [List.foldl_cons]
    exact ih _ (scanStep_pair mesh tsfP tsfN cellI mp a h)

/-- A value scanned at a listed internal face is inside the final scan
result. -/
lemma foldl_scanStep_captures (mesh : Mesh) (tsfP tsfN : Nat → ℚ)
    (cellI : Nat) (l : List Nat) (mp0 : ℚ × ℚ) (h0 : mp0.2 ≤ mp0.1)
    (f : Nat) (hmem : f ∈ l) (hf : f < mesh.nInternalFaces) :
    (l.foldl (scanStep mesh tsfP tsfN cellI) mp0).2 ≤
        (if cellI = mesh.owner f then tsfP f else tsfN f) ∧
      (if cellI = mesh.owner f then tsfP f else tsfN f) ≤
        (l.foldl (scanStep mesh tsfP tsfN cellI) mp0).1 := by
  obtain ⟨l1, l2, rfl⟩ := List.append_of_mem hmem
  rw [List.foldl_append, List.foldl_cons]
  have h1 : (l1.foldl (scanStep mesh tsfP tsfN cellI) mp0).2 ≤
      (l1.foldl (scanStep mesh tsfP tsfN cellI) mp0).1 :=
    foldl_scanStep_pair mesh tsfP tsfN cellI l1 mp0 h0
  have hcap := scanStep_captures mesh tsfP tsfN cellI
    (l1.foldl (scanStep mesh tsfP tsfN cellI) mp0) f h1 hf
  exact ⟨le_trans (foldl_scanStep_snd_le mesh tsfP tsfN cellI l2 _)
      hcap.1,
    le_trans hcap.2 (foldl_scanStep_fst_le mesh tsfP tsfN cellI l2 _)⟩

/-- The cell average is inside its own scan result. -/
lemma cellMaxMinP_self (mesh : Mesh) (vfI tsfP tsfN : Nat → ℚ)
    (cellI : Nat) :
    (cellMaxMinP mesh vfI tsfP tsfN cellI).2 ≤ vfI cellI ∧
      vfI cellI ≤ (cellMaxMinP mesh vfI tsfP tsfN cellI).1 := by
  unfold cellMaxMinP
  exact ⟨foldl_scanStep_snd_le mesh tsfP tsfN cellI _ _,
    foldl_scanStep_fst_le mesh tsfP tsfN cellI _ _⟩

/-- A provisional face value at a cell's internal face is inside that
cell's scan result. -/
lemma cellMaxMinP_captures (mesh : Mesh) (vfI tsfP tsfN : Nat → ℚ)
    (cellI : Nat) (f : Nat) (hmem : f ∈ mesh.cellFaces cellI)
    (hf : f < mesh.nInternalFaces) :
    (cellMaxMinP mesh vfI tsfP tsfN cellI).2 ≤
        (if cellI = mesh.owner f then tsfP f else tsfN f) ∧
      (if cellI = mesh.owner f then tsfP f else tsfN f) ≤
        (cellMaxMinP mesh vfI tsfP tsfN cellI).1 := by
  unfold cellMaxMinP
  exact foldl_scanStep_captures mesh tsfP tsfN cellI _ _ (le_refl _) f
    hmem hf

end BoundLemmas

/-- C1 counterexample: at internal face `0` of the concrete mesh the
flux is positive, the donor cell is cell `0`, and with limiting factor
`1` the limited face value (donor average plus written correction,
here `0 + 5`) lies strictly above the maximum (`1`) of the donor
cell's immediate cell neighbourhood, because `calcLimiter` bounds the
value by the global field extrema and the provisional face values, not
by the neighbouring cell averages. -/
theorem wenoC1_counterexample :
    0 < exState.faceFlux 0 ∧
    specNeighMax exMesh exState.vfI exState.bndVfN (exMesh.owner 0) <
      exState.vfI (exMesh.owner 0) +
        (calcLimiter exMesh 1 exState).tsfP 0 := by
  constructor
  · norm_num [exState]
  · have h0 : exMesh.owner 0 = 0 := rfl
    have hth : thetaField exMesh exState.vfI exState.tsfP exState.tsfN
        0 = 1 := by
      norm_num [thetaField, thetaCell, cellMaxMinP, scanStep, exMesh,
        exState, fieldMax, fieldMin, tol, List.range_succ, max_def,
        min_def]
    have hval : (calcLimiter exMesh 1 exState).tsfP 0 = 5 := by
      rw [calcLimiter_tsfP,
        if_pos (by decide : (0 : Nat) < exMesh.nInternalFaces)]
      unfold internalFaceVal
      rw [if_pos (show exState.faceFlux 0 > 0 by norm_num [exState])]
      rw [h0, hth]
      norm_num [exState]
    have hnb : specNeighMax exMesh exState.vfI exState.bndVfN 0 = 1 := by
      norm_num [specNeighMax, specNeighVals, exMesh, exState,
        List.range_succ, List.filterMap_cons, List.filterMap_nil,
        max_def]
    rw [h0, hval, hnb]
    norm_num [exState]

/-- C1 (corrected): for limiting factor `1`, at every internal face the
limited face value (donor-cell average plus written correction) lies
between the `minP` and `maxP` computed by `calcLimiter` for the donor
cell, i.e. the extrema over the donor's own average and the provisional
face values scanned at the donor's internal faces; boundary faces are
skipped by the scan, so coupled-patch faces carry no such bound (their
negative-flux branch is explicitly unlimited in the source). -/
theorem wenoC1_internal_face_bound (mesh : Mesh) (s : LimState)
    (f : Nat) (hf : f < mesh.nInternalFaces) :
    (0 < s.faceFlux f → f ∈ mesh.cellFaces (mesh.owner f) →
      (cellMaxMinP mesh s.vfI s.tsfP s.tsfN (mesh.owner f)).2 ≤
          s.vfI (mesh.owner f) + (calcLimiter mesh 1 s).tsfP f ∧
        s.vfI (mesh.owner f) + (calcLimiter mesh 1 s).tsfP f ≤
          (cellMaxMinP mesh s.vfI s.tsfP s.tsfN (mesh.owner f)).1) ∧
    (s.faceFlux f < 0 → f ∈ mesh.cellFaces (mesh.neighbour f) →
      mesh.neighbour f ≠ mesh.owner f →
      (cellMaxMinP mesh s.vfI s.tsfP s.tsfN (mesh.neighbour f)).2 ≤
          s.vfI (mesh.neighbour f) + (calcLimiter mesh 1 s).tsfP f ∧
        s.vfI (mesh.neighbour f) + (calcLimiter mesh 1 s).tsfP f ≤
          (cellMaxMinP mesh s.vfI s.tsfP s.tsfN (mesh.neighbour f)).1) := by
  constructor
  · intro hpos hmem
    rw [calcLimiter_tsfP, if_pos hf]
    unfold internalFaceVal
    rw [if_pos hpos]
    obtain ⟨hθ0, hθ1⟩ :=
      thetaField_bounds mesh s.vfI s.tsfP s.tsfN (mesh.owner f)
    obtain ⟨hm2v, hvm1⟩ :=
      cellMaxMinP_self mesh s.vfI s.tsfP s.tsfN (mesh.owner f)
    have hcap := cellMaxMinP_captures mesh s.vfI s.tsfP s.tsfN
      (mesh.owner f) f hmem hf
    rw [if_pos rfl] at hcap
    obtain ⟨hm2t, htm1⟩ := hcap
    constructor
    · nlinarith [mul_nonneg hθ0 (sub_nonneg.mpr hm2t),
        mul_nonneg (sub_nonneg.mpr hθ1) (sub_nonneg.mpr hm2v)]
    · nlinarith [mul_nonneg hθ0 (sub_nonneg.mpr htm1),
        mul_nonneg (sub_nonneg.mpr hθ1) (sub_nonneg.mpr hvm1)]
  · intro hneg hmem hne
    rw [calcLimiter_tsfP, if_pos hf]
    unfold internalFaceVal
    rw [if_neg (lt_asymm hneg), if_pos hneg]
    obtain ⟨hθ0, hθ1⟩ :=
      thetaField_bounds mesh s.vfI s.tsfP s.tsfN (mesh.neighbour f)
    obtain ⟨hm2v, hvm1⟩ :=
      cellMaxMinP_self mesh s.vfI s.tsfP s.tsfN (mesh.neighbour f)
    have hcap := cellMaxMinP_captures mesh s.vfI s.tsfP s.tsfN
      (mesh.neighbour f) f hmem hf
    rw [if_neg hne] at hcap
    obtain ⟨hm2t, htm1⟩ := hcap
    constructor
    · nlinarith [mul_nonneg hθ0 (sub_nonneg.mpr hm2t),
        mul_nonneg (sub_nonneg.mpr hθ1) (sub_nonneg.mpr hm2v)]
    · nlinarith [mul_nonneg hθ0 (sub_nonneg.mpr htm1),
        mul_nonneg (sub_nonneg.mpr hθ1) (sub_nonneg.mpr hvm1)]

/-- C1 witness: the corrected bound instantiated at internal face `0`
of the concrete mesh with positive flux. -/
theorem wenoC1_witness :
    (cellMaxMinP exMesh exState.vfI exState.tsfP exState.tsfN
        (exMesh.owner 0)).2 ≤
      exState.vfI (exMesh.owner 0) +
        (calcLimiter exMesh 1 exState).tsfP 0 ∧
    exState.vfI (exMesh.owner 0) +
        (calcLimiter exMesh 1 exState).tsfP 0 ≤
      (cellMaxMinP exMesh exState.vfI exState.tsfP exState.tsfN
        (exMesh.owner 0)).1 :=
  (wenoC1_internal_face_bound exMesh exState 0 (by decide)).1
    (by norm_num [exState]) (by decide)

/-- With one component, the generic limiter coefficient at component
`0` is the scalar limiter coefficient. -/
lemma lift_gThetaField (mesh : Mesh) (vfI tsfP tsfN : Nat → ℚ)
    (c : Nat) :
    gThetaField mesh 1 (fun i _ => vfI i) (fun f _ => tsfP f)
      (fun f _ => tsfN f) c 0 = thetaField mesh vfI tsfP tsfN c := by
  unfold gThetaField thetaField
  by_cases hc : c < mesh.nCells
  · rw [if_pos ⟨hc, Nat.zero_lt_one⟩, if_pos hc]
    rfl
  · rw [if_neg (fun h => hc h.1), if_neg hc]

/-- With one component, the generic internal-face branch value at
component `0` is the scalar branch value. -/
lemma lift_gInternalFaceNew (mesh : Mesh) (limFac : ℚ)
    (vfI tsfP tsfN faceFlux : Nat → ℚ) (tPf : ℚ) (x : Nat) :
    gInternalFaceNew mesh limFac
      (gThetaField mesh 1 (fun i _ => vfI i) (fun f _ => tsfP f)
        (fun f _ => tsfN f)) 1
      (fun i _ => vfI i) (fun f _ => tsfN f) faceFlux (fun _ => tPf)
      x 0 =
    internalFaceVal mesh limFac (thetaField mesh vfI tsfP tsfN) vfI
      tsfN faceFlux tPf x := by
  unfold gInternalFaceNew internalFaceVal
  split_ifs with h1 h2
  · simp [List.range_succ, List.range_zero, Function.update_same,
      lift_gThetaField]
  · simp [List.range_succ, List.range_zero, Function.update_same,
      lift_gThetaField]
  · rfl

/-- With one component, the generic coupled-face branch value at
component `0` is the scalar branch value. -/
lemma lift_gCoupledFaceNew (mesh : Mesh) (limFac : ℚ)
    (vfI tsfP tsfN : Nat → ℚ) (pOwner : List Nat)
    (pbtsfN pFaceFlux vfN : Nat → ℚ) (tPf : ℚ) (fI : Nat) :
    gCoupledFaceNew limFac
      (gThetaField mesh 1 (fun i _ => vfI i) (fun f _ => tsfP f)
        (fun f _ => tsfN f)) 1
      (fun i _ => vfI i) pOwner (fun f _ => pbtsfN f) pFaceFlux
      (fun f _ => vfN f) (fun _ => tPf) fI 0 =
    coupledFaceVal limFac (thetaField mesh vfI tsfP tsfN) vfI pOwner
      pbtsfN pFaceFlux vfN tPf fI := by
  unfold gCoupledFaceNew coupledFaceVal
  dsimp only
  split_ifs with h1 h2
  · simp [List.range_succ, List.range_zero, Function.update_same,
      lift_gThetaField]
  · simp [List.range_succ, List.range_zero, Function.update_same,
      lift_gThetaField]
  · rfl

/-- C3: the scalar specialisation of `calcLimiter` computes exactly
what the generic templated `calcLimiter` computes when instantiated
with one component: on every scalar input state, every internal face
value and every boundary face value of the two runs agree (the scalar
state is viewed as a one-component state, and component `0` of the
generic result is compared). -/
theorem wenoC3_scalar_matches_generic (mesh : Mesh) (limFac : ℚ)
    (s : LimState) :
    (∀ x, (gCalcLimiter mesh limFac 1 (liftState s)).tsfP x 0 =
      (calcLimiter mesh limFac s).tsfP x) ∧
    (∀ pI fI,
      (gCalcLimiter mesh limFac 1 (liftState s)).bndTsfP pI fI 0 =
        (calcLimiter mesh limFac s).bndTsfP pI fI) := by
  constructor
  · intro x
    rw [gCalcLimiter_tsfP, calcLimiter_tsfP]
    by_cases hx : x < mesh.nInternalFaces
    · rw [if_pos hx, if_pos hx]
      simp only [liftState]
      exact lift_gInternalFaceNew mesh limFac s.vfI s.tsfP s.tsfN
        s.faceFlux (s.tsfP x) x
    · rw [if_neg hx, if_neg hx]
      rfl
  · intro pI fI
    rw [gCalcLimiter_bndTsfP, calcLimiter_bndTsfP]
    by_cases hc : pI < mesh.nPatches ∧ mesh.patchCoupled pI ∧
        fI < (mesh.patchFaceCells pI).length
    · rw [if_pos hc, if_pos hc]
      simp only [liftState]
      exact lift_gCoupledFaceNew mesh limFac s.vfI s.tsfP s.tsfN
        (mesh.patchFaceCells pI) (s.bndTsfN pI) (s.bndFaceFlux pI)
        (s.bndVfN pI) (s.bndTsfP pI fI) fI
    · rw [if_neg hc, if_neg hc]
      rfl

/-- C2 counterexample: a second call to `WENOBase::instance` with the
same mesh but a different polynomial order returns the instance built
by the first call, whose stored polynomial order is `2`, not the store
constructed for the new key `(7, 3)`. -/
theorem wenoC2_counterexample :
    (WENOBase.instanceCall (WENOBase.instanceCall none 7 2).2 7 3).1 =
        (WENOBase.instanceCall none 7 2).1 ∧
      (WENOBase.instanceCall (WENOBase.instanceCall none 7 2).2 7 3).1.polOrder
        ≠ 3 := by
  decide

/-- C2 (corrected): `WENOBase::instance` is a single function-local
static, not a per-key cache.  The first call constructs the instance
from that call's mesh and polynomial order, and every subsequent call
returns that same instance whatever arguments it receives. -/
theorem wenoC2_single_static_instance :
    (∀ meshId polOrder,
      (WENOBase.instanceCall none meshId polOrder).1 =
        ⟨meshId, polOrder⟩) ∧
    (∀ st meshId polOrder meshId2 polOrder2,
      (WENOBase.instanceCall
          (WENOBase.instanceCall st meshId polOrder).2 meshId2
          polOrder2).1 =
        (WENOBase.instanceCall st meshId polOrder).1) := by
  constructor
  · intro m p
    rfl
  · intro st m p m2 p2
    cases st <;> rfl

/-- C4: at every internal or coupled-patch face whose stored face flux
is exactly zero, `calcLimiter` writes a correction of exactly zero,
for every input field and limiting factor (the polynomial order is not
read by `calcLimiter` at all). -/
theorem wenoC4_zero_flux_zero_correction (mesh : Mesh) (limFac : ℚ)
    (s : LimState) :
    (∀ f, f < mesh.nInternalFaces → s.faceFlux f = 0 →
      (calcLimiter mesh limFac s).tsfP f = 0) ∧
    (∀ pI fI, pI < mesh.nPatches → mesh.patchCoupled pI = true →
      fI < (mesh.patchFaceCells pI).length →
      s.bndFaceFlux pI fI = 0 →
      (calcLimiter mesh limFac s).bndTsfP pI fI = 0) := by
  constructor
  · intro f hf hz
    rw [calcLimiter_tsfP, if_pos hf]
    simp [internalFaceVal, hz]
  · intro pI fI h1 h2 h3 hz
    rw [calcLimiter_bndTsfP, if_pos ⟨h1, h2, h3⟩]
    simp [coupledFaceVal, hz]

/-- C4 witness at a concrete mesh and state: face `1` and the coupled
face `(0, 0)` carry zero flux and get a zero correction. -/
theorem wenoC4_witness :
    (calcLimiter exMesh (1 / 2) exState).tsfP 1 = 0 ∧
    (calcLimiter exMesh (1 / 2) exState).bndTsfP 0 0 = 0 :=
  ⟨(wenoC4_zero_flux_zero_correction exMesh (1 / 2) exState).1 1
      (by decide) (by decide),
    (wenoC4_zero_flux_zero_correction exMesh (1 / 2) exState).2 0 0
      (by decide) (by decide) (by decide) (by decide)⟩

/-- C5: if the cell averages and every provisional face value equal the
same constant `c`, the correction written by `calcLimiter` is exactly
zero at every internal and coupled face, for every polynomial order and
every limiting factor in `[0, 1]`. -/
theorem wenoC5_constant_preservation (mesh : Mesh) (polOrder : ℚ)
    (limFac : ℚ) (c : ℚ) (s : LimState) (h0 : 0 ≤ limFac)
    (h1 : limFac ≤ 1) (hvf : s.vfI = fun _ => c)
    (htP : s.tsfP = fun _ => c) (htN : s.tsfN = fun _ => c)
    (hbP : s.bndTsfP = fun _ _ => c) (hbN : s.bndTsfN = fun _ _ => c)
    (hvN : s.bndVfN = fun _ _ => c) :
    (∀ f, f < mesh.nInternalFaces →
      (calcLimiter mesh limFac s).tsfP f = 0) ∧
    (∀ pI fI, pI < mesh.nPatches → mesh.patchCoupled pI = true →
      fI < (mesh.patchFaceCells pI).length →
      (calcLimiter mesh limFac s).bndTsfP pI fI = 0) := by
  constructor
  · intro f hf
    rw [calcLimiter_tsfP, if_pos hf]
    unfold internalFaceVal
    simp only [hvf, htP, htN]
    split_ifs <;> ring
  · intro pI fI hp1 hp2 hp3
    rw [calcLimiter_bndTsfP, if_pos ⟨hp1, hp2, hp3⟩]
    unfold coupledFaceVal
    simp only [hvf, hbP, hbN, hvN]
    split_ifs <;> ring

/-- C5 witness: the concrete constant-`3` state on `exMesh` yields a
zero correction at face `0` and at the coupled face `(0, 0)`. -/
theorem wenoC5_witness :
    (calcLimiter exMesh (1 / 2) exConstState).tsfP 0 = 0 ∧
    (calcLimiter exMesh (1 / 2) exConstState).bndTsfP 0 0 = 0 :=
  ⟨(wenoC5_constant_preservation exMesh 2 (1 / 2) 3 exConstState
      (by norm_num) (by norm_num) rfl rfl rfl rfl rfl rfl).1 0
      (by decide),
    (wenoC5_constant_preservation exMesh 2 (1 / 2) 3 exConstState
      (by norm_num) (by norm_num) rfl rfl rfl rfl rfl rfl).2 0 0
      (by decide) (by decide) (by decide)⟩

/-- C6: with limiting factor `0` the limiter leaves the upwind-selected
provisional reconstruction unchanged: at every face with nonzero flux
the donor-cell average plus the written correction equals the
provisional upwind face value (owner-side `tsfP` for positive flux,
neighbour-side `tsfN`, or across a coupled patch the exchanged
`pbtsfN`, for negative flux). -/
theorem wenoC6_limFac_zero_unlimited (mesh : Mesh) (s : LimState) :
    (∀ f, f < mesh.nInternalFaces →
      (0 < s.faceFlux f →
        s.vfI (mesh.owner f) + (calcLimiter mesh 0 s).tsfP f =
          s.tsfP f) ∧
      (s.faceFlux f < 0 →
        s.vfI (mesh.neighbour f) + (calcLimiter mesh 0 s).tsfP f =
          s.tsfN f)) ∧
    (∀ pI fI, pI < mesh.nPatches → mesh.patchCoupled pI = true →
      fI < (mesh.patchFaceCells pI).length →
      (0 < s.bndFaceFlux pI fI →
        s.vfI ((mesh.patchFaceCells pI).getD fI 0) +
            (calcLimiter mesh 0 s).bndTsfP pI fI =
          s.bndTsfP pI fI) ∧
      (s.bndFaceFlux pI fI < 0 →
        s.bndVfN pI fI + (calcLimiter mesh 0 s).bndTsfP pI fI =
          s.bndTsfN pI fI)) := by
  constructor
  · intro f hf
    constructor
    · intro hpos
      rw [calcLimiter_tsfP, if_pos hf]
      unfold internalFaceVal
      rw [if_pos hpos]
      ring
    · intro hneg
      rw [calcLimiter_tsfP, if_pos hf]
      unfold internalFaceVal
      rw [if_neg (lt_asymm hneg), if_pos hneg]
      ring
  · intro pI fI hp1 hp2 hp3
    constructor
    · intro hpos
      rw [calcLimiter_bndTsfP, if_pos ⟨hp1, hp2, hp3⟩]
      unfold coupledFaceVal
      dsimp only
      rw [if_pos hpos]
      ring
    · intro hneg
      rw [calcLimiter_bndTsfP, if_pos ⟨hp1, hp2, hp3⟩]
      unfold coupledFaceVal
      dsimp only
      rw [if_neg (lt_asymm hneg), if_pos hneg]
      ring

/-- C6 witness: on the concrete state with positive flux at face `0`,
negative flux at face `1` and negative coupled-patch flux, the face
values for limiting factor `0` are the unchanged provisional
reconstructions. -/
theorem wenoC6_witness :
    exStateNeg.vfI (exMesh.owner 0) +
        (calcLimiter exMesh 0 exStateNeg).tsfP 0 = exStateNeg.tsfP 0 ∧
    exStateNeg.vfI (exMesh.neighbour 1) +
        (calcLimiter exMesh 0 exStateNeg).tsfP 1 = exStateNeg.tsfN 1 ∧
    exStateNeg.bndVfN 0 0 +
        (calcLimiter exMesh 0 exStateNeg).bndTsfP 0 0 =
      exStateNeg.bndTsfN 0 0 :=
  ⟨((wenoC6_limFac_zero_unlimited exMesh exStateNeg).1 0
      (by decide)).1 (by decide),
    ((wenoC6_limFac_zero_unlimited exMesh exStateNeg).1 1
      (by decide)).2 (by decide),
    ((wenoC6_limFac_zero_unlimited exMesh exStateNeg).2 0 0
      (by decide) (by decide) (by decide)).2 (by decide)⟩

/-- C7: `calcLimiter` writes only the owner-side face field and its
boundary field; the cell-average field, the neighbour-side face field,
the face flux, the exchanged neighbour values and every cached Stencil
Store table are unchanged by every evaluation call. -/
theorem wenoC7_evaluation_frame (mesh : Mesh) (limFac : ℚ)
    (s : LimState) :
    (calcLimiter mesh limFac s).vfI = s.vfI ∧
    (calcLimiter mesh limFac s).tsfN = s.tsfN ∧
    (calcLimiter mesh limFac s).faceFlux = s.faceFlux ∧
    (calcLimiter mesh limFac s).bndTsfN = s.bndTsfN ∧
    (calcLimiter mesh limFac s).bndFaceFlux = s.bndFaceFlux ∧
    (calcLimiter mesh limFac s).bndVfN = s.bndVfN ∧
    (calcLimiter mesh limFac s).store = s.store ∧
    (calcLimiter mesh limFac s).store.stencilsID =
      s.store.stencilsID ∧
    (calcLimiter mesh limFac s).store.haloCenters =
      s.store.haloCenters ∧
    (calcLimiter mesh limFac s).store.cellToPatchMap =
      s.store.cellToPatchMap ∧
    (calcLimiter mesh limFac s).store.patchToProcMap =
      s.store.patchToProcMap ∧
    (calcLimiter mesh limFac s).store.volIntegralsList =
      s.store.volIntegralsList ∧
    (calcLimiter mesh limFac s).store.intBasTrans =
      s.store.intBasTrans ∧
    (calcLimiter mesh limFac s).store.refFacAr = s.store.refFacAr ∧
    (calcLimiter mesh limFac s).store.lsMatrix = s.store.lsMatrix ∧
    (calcLimiter mesh limFac s).store.oscB = s.store.oscB ∧
    (calcLimiter mesh limFac s).store.dimList = s.store.dimList := by
  unfold calcLimiter
  rw [foldl_patchStep_eq, foldl_internalStep_eq]
  exact ⟨rfl, rfl, rfl, rfl, rfl, rfl, rfl, rfl, rfl, rfl, rfl, rfl,
    rfl, rfl, rfl, rfl, rfl⟩

/-- C8: the constructor taking only a mesh and a polynomial order sets
the limiting factor to `0` and the face flux to the identically zero
surface field; running `calcLimiter` with that scheme's data therefore
takes the zero-flux branch and writes a zero correction at every
internal and every coupled face, for every input field. -/
theorem wenoC8_mesh_constructor_zero (mesh : Mesh) (polOrder : Int)
    (s : LimState)
    (hflux : s.faceFlux = (WENOUpwindFit.fromMesh mesh polOrder).faceFlux)
    (hbflux : s.bndFaceFlux =
      (WENOUpwindFit.fromMesh mesh polOrder).bndFaceFlux) :
    (WENOUpwindFit.fromMesh mesh polOrder).limFac = 0 ∧
    (∀ f, (WENOUpwindFit.fromMesh mesh polOrder).faceFlux f = 0) ∧
    (∀ pI fI,
      (WENOUpwindFit.fromMesh mesh polOrder).bndFaceFlux pI fI = 0) ∧
    (∀ f, f < mesh.nInternalFaces →
      (calcLimiter mesh (WENOUpwindFit.fromMesh mesh polOrder).limFac
        s).tsfP f = 0) ∧
    (∀ pI fI, pI < mesh.nPatches → mesh.patchCoupled pI = true →
      fI < (mesh.patchFaceCells pI).length →
      (calcLimiter mesh (WENOUpwindFit.fromMesh mesh polOrder).limFac
        s).bndTsfP pI fI = 0) := by
  refine ⟨rfl, fun _ => rfl, fun _ _ => rfl, ?_, ?_⟩
  · intro f hf
    rw [calcLimiter_tsfP, if_pos hf]
    have hz : s.faceFlux f = 0 := by
      rw [hflux]
      rfl
    simp [internalFaceVal, hz]
  · intro pI fI hp1 hp2 hp3
    rw [calcLimiter_bndTsfP, if_pos ⟨hp1, hp2, hp3⟩]
    have hz : s.bndFaceFlux pI fI = 0 := by
      rw [hbflux]
      rfl
    simp [coupledFaceVal, hz]

/-- C8 witness: the concrete zero-flux state matching the mesh-only
constructor on `exMesh` gets a zero correction at face `0` and at the
coupled face `(0, 0)`. -/
theorem wenoC8_witness :
    (calcLimiter exMesh (WENOUpwindFit.fromMesh exMesh 2).limFac
      exZeroFluxState).tsfP 0 = 0 ∧
    (calcLimiter exMesh (WENOUpwindFit.fromMesh exMesh 2).limFac
      exZeroFluxState).bndTsfP 0 0 = 0 :=
  ⟨(wenoC8_mesh_constructor_zero exMesh 2 exZeroFluxState rfl rfl).2.2.2.1
      0 (by decide),
    (wenoC8_mesh_constructor_zero exMesh 2 exZeroFluxState rfl
      rfl).2.2.2.2 0 0 (by decide) (by decide) (by decide)⟩

/-- C9: every entry of the limiter coefficient array `theta` lies in
`[0, 1]`, in the scalar specialisation and, per component, in the
generic `calcLimiter`. -/
theorem wenoC9_theta_in_unit_interval (mesh : Mesh)
    (vfI tsfP tsfN : Nat → ℚ) (cellI : Nat) (nComp cI : Nat)
    (gvfI gtsfP gtsfN : Nat → Nat → ℚ) :
    (0 ≤ thetaField mesh vfI tsfP tsfN cellI ∧
      thetaField mesh vfI tsfP tsfN cellI ≤ 1) ∧
    (0 ≤ gThetaField mesh nComp gvfI gtsfP gtsfN cellI cI ∧
      gThetaField mesh nComp gvfI gtsfP gtsfN cellI cI ≤ 1) :=
  ⟨thetaField_bounds mesh vfI tsfP tsfN cellI,
    gThetaField_bounds mesh nComp gvfI gtsfP gtsfN cellI cI⟩

/-- C10: the implicit interpolation weights are `pos(faceFlux_)`: `1`
at faces with positive stored flux, `0` at faces with negative stored
flux, and independent of the interpolated field. -/
theorem wenoC10_weights_pure_upwind (sch : WENOUpwindFit)
    (vf vf1 vf2 : Nat → ℚ) :
    (∀ f, sch.weights vf f = pos (sch.faceFlux f)) ∧
    (∀ f, 0 < sch.faceFlux f → sch.weights vf f = 1) ∧
    (∀ f, sch.faceFlux f < 0 → sch.weights vf f = 0) ∧
    sch.weights vf1 = sch.weights vf2 := by
  refine ⟨fun f => rfl, fun f hf => ?_, fun f hf => ?_, rfl⟩
  · unfold WENOUpwindFit.weights pos
    rw [if_pos (le_of_lt hf)]
  · unfold WENOUpwindFit.weights pos
    rw [if_neg (not_le.mpr hf)]

/-- Concrete scheme data for the weights witness. -/
def exScheme : WENOUpwindFit :=
  { faceFlux := fun f => if f = 0 then 1 else -1
    bndFaceFlux := fun _ _ => 0
    polOrder := 3
    limFac := 1 }

/-- C10 witness: on a concrete scheme the weight is `1` at the
positive-flux face `0` and `0` at the negative-flux face `1`. -/
theorem wenoC10_witness :
    exScheme.weights (fun _ => 0) 0 = 1 ∧
    exScheme.weights (fun _ => 7) 1 = 0 :=
  ⟨(wenoC10_weights_pure_upwind exScheme (fun _ => 0) (fun _ => 0)
      (fun _ => 0)).2.1 0 (by decide),
    (wenoC10_weights_pure_upwind exScheme (fun _ => 7) (fun _ => 0)
      (fun _ => 0)).2.2.1 1 (by decide)⟩

end WENOEXT
